import Mathlib

/-!
Verification development for the stacked denoising autoencoder node
(`stacked_autoencoder.py`): a shallow embedding of the multi-source
synchronization buffer, registration, construction-time validation,
noise injection, greedy layer-wise training, and the feed-forward
transform, together with theorems settling the specification claims.

Numeric arrays are modelled over the integers and parsed floats as
exact decimals (the code uses machine floats; all claims settled here
are structural, not about continuous rounding).
Randomness (numpy sampling) is modelled by explicit oracle parameters.
-/

namespace SAE

/-- A numpy 2-d array, as a list of rows.  Scalar entries are modelled
as integers: every claim settled here is structural, never about the
continuous arithmetic of machine floats. -/
abbrev Mat : Type := List (List Int)

/-- An exact decimal value num/den (den a positive power of ten), the
model of a Python float parsed from a decimal literal. -/
abbrev Frac : Type := Int × Nat

/-- A Python value that may live in an input-buffer slot: a numpy
ndarray, the value None, or some other object (identified by a tag). -/
inductive PyVal where
  | nd (m : Mat)
  | pynone
  | other (tag : String)
deriving DecidableEq

/-- Models Python `isinstance(v, np.ndarray)`. -/
def isNd : PyVal → Bool
  | PyVal.nd _ => true
  | _ => false

/-- Extract the array from an ndarray value (callers guard with `isNd`). -/
def getNd : PyVal → Mat
  | PyVal.nd m => m
  | _ => []

/-- Models `np.concatenate((a, b), axis=1)` for two arrays: rows are
joined pairwise.  Equal row counts are assumed, not checked, exactly as
in the code. -/
def hcat (a b : Mat) : Mat := List.zipWith (fun r s => r ++ s) a b

/-- Models `np.concatenate(tuple(data), axis=1)` over a non-empty list
of arrays (the code only reaches this with a non-empty buffer). -/
def concatAxis1 : List Mat → Mat
  | [] => []
  | h :: t => t.foldl hcat h

/-- Models Python `str.find`: the lowest index at which `sub` occurs in
`s`, and `-1` when it does not occur. -/
def pyFind (s sub : String) : Int :=
  match (List.range (s.length + 1)).find? (fun i => sub.data.isPrefixOf (s.data.drop i)) with
  | some i => (i : Int)
  | Option.none => -1

/-- An upstream producer as seen by `register_for` / `receive_data_from`:
its identity (dictionary key), whether it is another StackedAutoEncoder
(`sender.__class__ == self.__class__`), and `str(sender.__class__)`. -/
structure Sender where
  id : Nat
  isAE : Bool
  classStr : String
deriving DecidableEq

/-- The node's `input_buffer`: an OrderedDict from registered senders to
their current slot value, kept in registration order. -/
abbrev Buffer : Type := List (Sender × PyVal)

/-- Models `sender in self.input_buffer`. -/
def containsKey (b : Buffer) (s : Sender) : Bool :=
  b.any (fun p => p.1 = s)

/-- Models `self.input_buffer[sender]` (read); `pynone` when absent. -/
def lookupD (b : Buffer) (s : Sender) : PyVal :=
  match b.find? (fun p => p.1 = s) with
  | some p => p.2
  | Option.none => PyVal.pynone

/-- Models `self.input_buffer[sender] = v` on an OrderedDict: an
existing key keeps its position, a new key is appended at the end. -/
def odSet (b : Buffer) (s : Sender) (v : PyVal) : Buffer :=
  if containsKey b s then
    b.map (fun p => if p.1 = s then (p.1, v) else p)
  else
    b ++ [(s, v)]

/-- The registration-order list of registered senders. -/
def keysOf (b : Buffer) : List Sender := b.map (fun p => p.1)

/-- Models `check_input_buffer`: when every slot holds an ndarray,
concatenate the payloads along axis 1 in registration order, run
`fit_transform` on the joined batch (the returned list records the
batches it was called on), and reset every slot to None; otherwise do
nothing. -/
def check_input_buffer (b : Buffer) : Buffer × List Mat :=
  if b.all (fun p => isNd p.2) then
    (b.map (fun p => (p.1, PyVal.pynone)),
     [concatAxis1 (b.map (fun p => getNd p.2))])
  else
    (b, [])

/-- Models `receive_data_from(sender, data)`: drop (with a warning) when
the sender is not registered, drop when the sender's slot already holds
an ndarray, and otherwise store the data and run the completeness
check.  The second component lists the batches `fit_transform` was
invoked on during the call. -/
def receive_data_from (b : Buffer) (s : Sender) (d : PyVal) : Buffer × List Mat :=
  if containsKey b s = false then
    (b, [])
  else if isNd (lookupD b s) then
    (b, [])
  else
    check_input_buffer (odSet b s d)

/-- The externally visible outcome of a `register_for` call: which
branch ran.  `registeredAE` appends this node's `receive_data_from` to
the sender's callback list; `registeredInput` calls
`sender.register_callback(region, ...)`; the two warn outcomes perform
no mutation anywhere. -/
inductive RegResult where
  | warnAlreadyRun
  | registeredAE
  | registeredInput
  | warnUnknown
deriving DecidableEq

/-- Models `register_for(sender, region)`: a soft-failing warning once
training has started (`iteration > 0`); otherwise an autoencoder sender
is subscribed to directly, and any sender whose class string makes
`str(sender.__class__).find("InputLayer")` truthy (any value other
than 0) is treated as an input layer.  In both success branches the
sender is added to the input buffer with a None slot. -/
def register_for (iteration : Nat) (b : Buffer) (s : Sender) : Buffer × RegResult :=
  if 0 < iteration then
    (b, RegResult.warnAlreadyRun)
  else if s.isAE then
    (odSet b s PyVal.pynone, RegResult.registeredAE)
  else if pyFind s.classStr "InputLayer" ≠ 0 then
    (odSet b s PyVal.pynone, RegResult.registeredInput)
  else
    (b, RegResult.warnUnknown)

/-- Digits of a decimal literal as a natural number. -/
def digitsToNat (l : List Char) : Nat :=
  l.foldl (fun a c => a * 10 + (c.toNat - 48)) 0

/-- Models Python `str.split(sep)` for a one-character separator, on
the character list of the string. -/
def splitChars (c : Char) : List Char → List (List Char)
  | [] => [[]]
  | a :: t =>
    if a = c then [] :: splitChars c t
    else
      match splitChars c t with
      | [] => [[a]]
      | h :: r => (a :: h) :: r

/-- Models Python `s.split(sep)` for a one-character separator. -/
def pySplit (s : String) (c : Char) : List String :=
  (splitChars c s.data).map (fun l => String.mk l)

/-- Models Python `float(s)` on plain decimal literals (optional sign,
integer part, optional fractional part): `some` exact value num/den on
success, `none` when `float` would raise `ValueError`.  Exponents and
the special values inf/nan are outside the strings this program feeds
it. -/
def pyFloat (s : String) : Option Frac :=
  let p : Int × List Char :=
    match s.data with
    | '+' :: t => (1, t)
    | '-' :: t => (-1, t)
    | l => (1, l)
  let ip := p.2.takeWhile (fun c => c ≠ '.')
  let rest := p.2.dropWhile (fun c => c ≠ '.')
  match rest with
  | [] =>
    if (decide (ip ≠ [])) && ip.all Char.isDigit then
      some (p.1 * (digitsToNat ip : Int), 1)
    else Option.none
  | _ :: fp =>
    if ip.all Char.isDigit && fp.all Char.isDigit && fp.all (fun c => c ≠ '.')
        && (decide (ip ≠ []) || decide (fp ≠ [])) then
      some (p.1 * ((digitsToNat ip : Int) * (10 ^ fp.length : Nat) + (digitsToNat fp : Int)),
            10 ^ fp.length)
    else Option.none

/-- Python truthiness of a value that is either a bool or None (the
possible results of `noise_validator`). -/
def pyTruthy : Option Bool → Bool
  | some b => b
  | Option.none => false

/-- The module-level `allowed_noises` list (None, gaussian, mask). -/
def allowed_noises : List (Option String) := [Option.none, some "gaussian", some "mask"]

/-- The module-level `allowed_losses` list. -/
def allowed_losses : List String := ["rmse", "cross-entropy"]

/-- Models `noise_validator(noise, allowed_noises)` with its try/except:
membership in the allowed list returns True; otherwise a string whose
first dash-field is "mask" is probed with `float` on its second
dash-field — an exception (missing field, unparseable float) is caught
and returns False, a falsy parse (0.0) falls off the function returning
None, and otherwise the \x5b0,1\x5d range test decides True/False.  A
first field other than "mask" also falls through to None. -/
def noise_validator (noise : Option String) (allowed : List (Option String)) : Option Bool :=
  match noise with
  | Option.none =>
    if Option.none ∈ allowed then some true else some false
  | some s =>
    if some s ∈ allowed then some true
    else if (pySplit s '-').headD "" = "mask" then
      match (pySplit s '-').get? 1 with
      | Option.none => some false
      | some fs =>
        match pyFloat fs with
        | Option.none => some false
        | some t =>
          if t.1 = 0 then Option.none
          else if 0 ≤ t.1 ∧ t.1 ≤ (t.2 : Int) then some true else some false
    else Option.none

/-- Models `assertions()`: construction succeeds exactly when every
assert passes.  The `dims` argument is a Lean list, so the code's
`'list' in str(type(self.dims))` check always holds here (it checks
only the type, never that the list is non-empty). -/
def assertionsOk (loss : String) (dims : List Nat) (epoch : List Int) (noise : Option String) : Bool :=
  decide (loss ∈ allowed_losses)
    && decide (epoch.length = dims.length)
    && epoch.all (fun x => decide (0 < x))
    && pyTruthy (noise_validator noise allowed_noises)

/-- Modelled from the spec wording of claim C5 (for refinement
comparison only): noiseSpec is none, gaussian, or mask(frac) with frac
parseable as a real number in \x5b0,1\x5d. -/
def specNoiseOk (noise : Option String) : Bool :=
  match noise with
  | Option.none => true
  | some s =>
    decide (s = "gaussian")
      || (decide (s.take 5 = "mask-")
          && match pyFloat (s.drop 5) with
             | some t => decide (0 ≤ t.1 ∧ t.1 ≤ (t.2 : Int))
             | Option.none => false)

/-- Modelled from the spec wording of claim C5 (for refinement
comparison only): the full validation rule set the claim states,
including that dims must be non-empty. -/
def specValid (loss : String) (dims : List Nat) (epoch : List Int) (noise : Option String) : Bool :=
  decide (loss ∈ allowed_losses)
    && decide (dims ≠ [])
    && decide (epoch.length = dims.length)
    && epoch.all (fun x => decide (1 ≤ x))
    && specNoiseOk noise

/-- The noise rule the code actually enforces: None, "gaussian" or
"mask" verbatim, or a string whose first dash-field is "mask" and whose
second dash-field parses to a nonzero rational in \x5b0,1\x5d. -/
def amendedNoiseOk (noise : Option String) : Bool :=
  match noise with
  | Option.none => true
  | some s =>
    decide (s = "gaussian") || decide (s = "mask")
      || (decide ((pySplit s '-').headD "" = "mask")
          && match (pySplit s '-').get? 1 with
             | some fs =>
               match pyFloat fs with
               | some t => decide (t.1 ≠ 0 ∧ 0 ≤ t.1 ∧ t.1 ≤ (t.2 : Int))
               | Option.none => false
             | Option.none => false)

/-- The validation rule set the code actually enforces (the amended
form of claim C5). -/
def amendedValid (loss : String) (dims : List Nat) (epoch : List Int) (noise : Option String) : Bool :=
  decide (loss ∈ allowed_losses)
    && decide (epoch.length = dims.length)
    && epoch.all (fun x => decide (0 < x))
    && amendedNoiseOk noise

/-- Models Python 2 `int(round(n/d))` for a positive denominator d:
round half away from zero, then truncate (a no-op on the integer
result). -/
def pyRoundFrac (n : Int) (d : Nat) : Int :=
  if 0 ≤ n then Int.fdiv (2 * n + d) (2 * d) else -(Int.fdiv (2 * (-n) + d) (2 * d))

/-- The number of columns `add_noise` masks in a row of width `w`:
`int(round(frac * len(i)))`. -/
def maskCount (frac : Frac) (w : Nat) : Nat :=
  (pyRoundFrac (frac.1 * w) frac.2).toNat

/-- Models `i[n] = 0` on one row: the positions in `chosen` are zeroed,
all other entries are kept. -/
def maskRowWith (chosen : List Nat) (row : List Int) : List Int :=
  List.zipWith (fun j v => if j ∈ chosen then 0 else v) (List.range row.length) row

/-- The array `x + np.random.normal(0, 0.2, (len(x), len(x[0])))`:
every element gets its own independent sample, supplied by the oracle
`gauss`. -/
def gaussResult (gauss : Nat → Nat → Int) (x : Mat) : Mat :=
  List.zipWith
    (fun (i : Nat) (row : List Int) =>
      List.zipWith (fun j v => v + gauss i j) (List.range row.length) row)
    (List.range x.length) x

/-- The copy of `x` after the mask loop: row i has the positions drawn
by `choose i (len row) (int(round(frac * len(row))))` zeroed. -/
def maskedResult (choose : Nat → Nat → Nat → List Nat) (frac : Frac) (x : Mat) : Mat :=
  List.zipWith
    (fun (i : Nat) (row : List Int) =>
      maskRowWith (choose i row.length (maskCount frac row.length)) row)
    (List.range x.length) x

/-- Models `add_noise(x)`.  Randomness is supplied by oracles: `gauss i
j` is the `np.random.normal(0, 0.2, ...)` sample at row i, column j,
and `choose i w k` is the `np.random.choice(w, k, replace=False)`
sample for row i (k distinct indices below w).  The result pairs the
returned value (None when the noise kind is "sp" or unrecognized, as
the function then falls off its end) with the caller's array after the
call — the mask branch mutates only the `np.copy`. -/
def add_noise (noise : Option String) (gauss : Nat → Nat → Int)
    (choose : Nat → Nat → Nat → List Nat) (x : Mat) : Except String (Option Mat × Mat) :=
  match noise with
  | Option.none => Except.error "TypeError: argument of type NoneType is not iterable"
  | some n =>
    if n = "gaussian" then
      Except.ok (some (gaussResult gauss x), x)
    else if "mask".data <:+: n.data then
      match (pySplit n '-').get? 1 with
      | Option.none => Except.error "IndexError: list index out of range"
      | some fs =>
        match pyFloat fs with
        | Option.none => Except.error "ValueError: could not convert string to float"
        | some frac =>
          Except.ok (some (maskedResult choose frac x), x)
    else Except.ok (Option.none, x)

/-- Dot product of two equal-length vectors. -/
def dotQ (r c : List Int) : Int :=
  (List.zipWith (fun a b => a * b) r c).sum

/-- Models `tf.transpose` on a rectangular array. -/
def transposeM (m : Mat) : Mat :=
  (List.range (m.headD []).length).map (fun j => m.map (fun r => r.getD j 0))

/-- Models `tf.matmul` on rectangular arrays. -/
def matmulM (a b : Mat) : Mat :=
  a.map (fun row => (transposeM b).map (fun col => dotQ row col))

/-- Models TensorFlow broadcasting of `matrix + bias_vector`: the bias
row is added to every row. -/
def addBroadcast (m : Mat) (bias : List Int) : Mat :=
  m.map (fun r => List.zipWith (fun a b => a + b) r bias)

/-- The three trainable variables one layer creates with
`tf.get_variable`: encode weights, encode biases, decode biases.  There
is deliberately no decode-weights field — the code never creates such a
variable. -/
structure LayerVars where
  encode_weights : Mat
  encode_biases : List Int
  decode_biases : List Int
deriving DecidableEq

/-- Names of the per-layer trainable variables. -/
inductive VName where
  | EW
  | EB
  | DB
deriving DecidableEq

/-- The tensor expressions `init_layer` builds: the input placeholder,
a variable reference, transpose, matmul, broadcast add of a bias, and
an activation op. -/
inductive TExp where
  | ph
  | evar (v : VName)
  | tr (e : TExp)
  | mm (a b : TExp)
  | addB (a b : TExp)
  | act (name : String) (e : TExp)
deriving DecidableEq

/-- The current value of a variable reference (biases as 1-row
matrices). -/
def getVar (σ : LayerVars) : VName → Mat
  | VName.EW => σ.encode_weights
  | VName.EB => [σ.encode_biases]
  | VName.DB => [σ.decode_biases]

/-- Evaluate a layer's tensor expression under placeholder feed `x` and
current variable values `σ`.  `A` interprets the four non-identity
activation ops elementwise or rowwise (sigmoid, softmax, tanh, relu). -/
def evalT (A : String → Mat → Mat) (x : Mat) (σ : LayerVars) : TExp → Mat
  | TExp.ph => x
  | TExp.evar v => getVar σ v
  | TExp.tr e => transposeM (evalT A x σ e)
  | TExp.mm a b => matmulM (evalT A x σ a) (evalT A x σ b)
  | TExp.addB a b => addBroadcast (evalT A x σ a) ((evalT A x σ b).headD [])
  | TExp.act n e => A n (evalT A x σ e)

/-- Models `activate(linear, name)` at graph-construction time: the
four nonlinearities wrap the input in an op, "linear" returns the input
unchanged, and any other name returns None (the function falls off its
end). -/
def tfActivate (name : String) (e : TExp) : Option TExp :=
  if name = "sigmoid" ∨ name = "softmax" ∨ name = "tanh" ∨ name = "relu" then
    some (TExp.act name e)
  else if name = "linear" then some e
  else Option.none

/-- Value-level counterpart of `tfActivate` for recognized activation
names (the four ops via `A`, identity for "linear"). -/
def applyActivation (A : String → Mat → Mat) (name : String) (m : Mat) : Mat :=
  if name = "sigmoid" ∨ name = "softmax" ∨ name = "tanh" ∨ name = "relu" then A name m
  else m

/-- What `init_layer` constructs for one layer: the dimensions, the
encode and decode ops, the derived decode-weights tensor
(`tf.transpose(encode_weights)`), and the list of trainable variables
it created.  The loss expression and the Adam `train_op` built from it
are abstracted into the optimizer-step oracle of `FitEnv`. -/
structure LayerGraph where
  input_dim : Nat
  hidden_dim : Nat
  encodedExp : TExp
  decodedExp : TExp
  decodeWeightsExp : TExp
  varsCreated : List VName
deriving DecidableEq

/-- Models `init_layer`: create the three variables, derive
decode_weights as the transpose of encode_weights, and build the encode
and decode ops.  Returns none when an activation name is unrecognized
(`activate` then yields None and the following tensor op raises). -/
def init_layer (input_dim hidden_dim : Nat)
    (encoding_activation decoding_activation : String) : Option LayerGraph :=
  match tfActivate encoding_activation
      (TExp.addB (TExp.mm TExp.ph (TExp.evar VName.EW)) (TExp.evar VName.EB)) with
  | Option.none => Option.none
  | some encoded =>
    match tfActivate decoding_activation
        (TExp.addB (TExp.mm encoded (TExp.tr (TExp.evar VName.EW)))
          (TExp.evar VName.DB)) with
    | Option.none => Option.none
    | some decoded =>
      some ⟨input_dim, hidden_dim, encoded, decoded, TExp.tr (TExp.evar VName.EW),
            [VName.EW, VName.EB, VName.DB]⟩

/-- Value-level `activate` for the transform chain: None (modelled as
`Option.none`) for an unrecognized activation name. -/
def applyActivationOpt (A : String → Mat → Mat) (name : String) (m : Mat) : Option Mat :=
  if name = "sigmoid" ∨ name = "softmax" ∨ name = "tanh" ∨ name = "relu" then some (A name m)
  else if name = "linear" then some m
  else Option.none

/-- Models the loop of `init_transform` together with running the built
op: chain `matmul(x, encode_weights) + encode_biases` plus activation
across the layer stack.  A layer whose variables were never created
still holds Python None in its dict, and `tf.matmul` with a None
operand raises (ValueError: None values not supported); a None produced
by an unrecognized activation poisons the next op, or the final run. -/
def transform_chain (A : String → Mat → Mat) :
    List (Option (LayerGraph × LayerVars) × String) → Option Mat → Except String Mat
  | [], Option.none => Except.error "TypeError: Fetch argument None has invalid type"
  | [], some m => Except.ok m
  | (lay, a) :: rest, mx =>
    match lay with
    | Option.none => Except.error "ValueError: None values not supported"
    | some lv =>
      match mx with
      | Option.none => Except.error "ValueError: None values not supported"
      | some m =>
        transform_chain A rest
          (applyActivationOpt A a
            (addBroadcast (matmulM m lv.2.encode_weights) lv.2.encode_biases))

/-- Models `transform(data)` on its first call (when `transform_op` is
still None): lazily build the inference graph from whatever layer state
exists via `init_transform` and run it on `data`. -/
def transform (A : String → Mat → Mat) (layers : List (Option (LayerGraph × LayerVars)))
    (encActs : List String) (data : Mat) : Except String Mat :=
  transform_chain A (List.zip layers encActs) (some data)

/-- The oracles the training model is parameterized by: `optStep` is
one `sess.run(train_op, ...)` of the Adam step built for a layer's
graph, fed the (corrupted, target) batch pair — its codomain is
`LayerVars`, so only the three created variables can be updated;
`actInterp` interprets activation ops; `initVars` is the
`tf.random_normal_initializer` draw for a freshly created layer; and
`corruptF` is `self.add_noise(np.copy(x))` with its random draws. -/
structure FitEnv where
  optStep : LayerGraph → LayerVars → Mat → Mat → LayerVars
  actInterp : String → Mat → Mat
  initVars : Nat → Nat → Nat → LayerVars
  corruptF : Mat → Mat

/-- The node state `fit` reads and writes: the iteration counter, the
constructor hyperparameters, and the per-layer graph and variable
values (None until the layer is initialized). -/
structure AENode where
  iteration : Nat
  dims : List Nat
  epoch : List Nat
  encActs : List String
  decActs : List String
  noise : Option String
  layers : List (Option (LayerGraph × LayerVars))

/-- The observable record of one layer's pass inside `fit`: which layer
ran, whether it was initialized on this call, its variable values
before and after the optimizer steps, the (corrupted, target) pair fed
to the trainer, and the clean encoding returned. -/
structure LayerFitLog where
  idx : Nat
  graph : LayerGraph
  inited : Bool
  varsBefore : LayerVars
  varsAfter : LayerVars
  corrupted : Mat
  target : Mat
  output : Mat

/-- Models `fit_layer(data_x, data_x_, layer, epoch)`: run the layer's
train op `epoch` times feeding (data_x, data_x_), then run `encode_op`
feeding the clean batch `data_x_` and return its value. -/
def fit_layer (E : FitEnv) (g : LayerGraph) (v : LayerVars)
    (data_x data_x_ : Mat) (epoch : Nat) : LayerVars × Mat :=
  let v' := (fun w => E.optStep g w data_x data_x_)^[epoch] v
  (v', evalT E.actInterp data_x_ v' g.encodedExp)

/-- Models the layer loop inside `fit`, over the list of layer indices:
on the node's first iteration each layer is initialized
(`init_layer` + random variable draw); on later iterations the stored
graph and variables are reused.  The working batch is corrupted only
when a noise spec is set, each layer trains on (corrupted, clean), and
the clean encoding becomes the next layer's input. -/
def fitLoop (E : FitEnv) (nd : AENode) (it : Nat) :
    List Nat → List (Option (LayerGraph × LayerVars)) → Mat →
    Except String (List (Option (LayerGraph × LayerVars)) × List LayerFitLog)
  | [], ls, _x => Except.ok (ls, [])
  | i :: rest, ls, x =>
    let gvE : Except String (LayerGraph × LayerVars) :=
      if it = 1 then
        match init_layer (x.headD []).length (nd.dims.getD i 0)
            (nd.encActs.getD i "") (nd.decActs.getD i "") with
        | some g => Except.ok (g, E.initVars i (x.headD []).length (nd.dims.getD i 0))
        | Option.none => Except.error "ValueError: None values not supported"
      else
        match ls.getD i Option.none with
        | some gv => Except.ok gv
        | Option.none => Except.error "ValueError: None values not supported"
    match gvE with
    | Except.error e => Except.error e
    | Except.ok gv =>
      let corrupted : Mat :=
        match nd.noise with
        | Option.none => x
        | some _ => E.corruptF x
      let p := fit_layer E gv.1 gv.2 corrupted x (nd.epoch.getD i 0)
      match fitLoop E nd it rest (ls.set i (some (gv.1, p.1))) p.2 with
      | Except.error e => Except.error e
      | Except.ok pr =>
        Except.ok (pr.1,
          { idx := i, graph := gv.1, inited := decide (it = 1),
            varsBefore := gv.2, varsAfter := p.1,
            corrupted := corrupted, target := x, output := p.2 } :: pr.2)

/-- Models `fit(x)`: increment the iteration counter, then train every
layer once in index order on progressively deeper representations. -/
def fit (E : FitEnv) (nd : AENode) (x : Mat) :
    Except String (AENode × List LayerFitLog) :=
  match fitLoop E nd (nd.iteration + 1) (List.range nd.dims.length) nd.layers x with
  | Except.error e => Except.error e
  | Except.ok pr =>
    Except.ok ({ nd with iteration := nd.iteration + 1, layers := pr.1 }, pr.2)

/-- The module-level `allowed_activations` list. -/
def allowed_activations : List String :=
  ["sigmoid", "tanh", "softmax", "relu", "linear"]

/-- True exactly on a successful `Except` result. -/
def isOkE {ε α : Type} : Except ε α → Bool
  | Except.ok _ => true
  | Except.error _ => false

/-- The behaviour claim C3 asserts of one `fit` call: the iteration
counter advances by one; every layer produces exactly one trainer pass,
in index order; each pass was initialized exactly when this was the
node's first call, ran exactly `epoch\x5bi\x5d` optimizer steps on the
(corrupted, clean) batch pair, and returned the clean encoding of its
clean input under the post-training variables; consecutive passes chain
the clean encoding into the next layer's input, starting from the fit
argument; and on a non-first call no layer graph is rebuilt. -/
def FitSpec (E : FitEnv) (nd : AENode) (x : Mat) (nd2 : AENode)
    (logs : List LayerFitLog) : Prop :=
  nd2.iteration = nd.iteration + 1
  ∧ logs.map (fun lg => lg.idx) = List.range nd.dims.length
  ∧ (∀ lg ∈ logs,
      lg.inited = decide (nd.iteration = 0)
      ∧ lg.varsAfter =
          (fun w => E.optStep lg.graph w lg.corrupted lg.target)^[nd.epoch.getD lg.idx 0]
            lg.varsBefore
      ∧ lg.corrupted = (match nd.noise with
          | Option.none => lg.target
          | some _ => E.corruptF lg.target)
      ∧ lg.output = evalT E.actInterp lg.target lg.varsAfter lg.graph.encodedExp)
  ∧ List.Chain' (fun a b => b.target = a.output) logs
  ∧ (∀ lg, logs.head? = some lg → lg.target = x)
  ∧ (nd.iteration ≠ 0 →
      nd2.layers.map (Option.map Prod.fst) = nd.layers.map (Option.map Prod.fst))

/-! Concrete instances used by the witness theorems. -/

/-- A registered autoencoder sender. -/
def senderA : Sender := ⟨1, true, "StackedAutoEncoder"⟩

/-- A second registered autoencoder sender. -/
def senderB : Sender := ⟨2, true, "StackedAutoEncoder"⟩

/-- A sender that is neither an autoencoder nor an input layer. -/
def senderC : Sender := ⟨3, false, "<class mypkg.Camera>"⟩

/-- A two-source buffer in which only senderA has delivered. -/
def bW : Buffer := [(senderA, PyVal.nd [[1, 2]]), (senderB, PyVal.pynone)]

/-- A trivial oracle environment for the training witnesses. -/
def envW : FitEnv :=
  ⟨fun _ v _ _ => v, fun _ m => m, fun _ _ _ => ⟨[[1]], [0], [0]⟩, fun m => m⟩

/-- A fresh one-layer node (iteration 0, layer not yet initialized). -/
def ndW : AENode :=
  ⟨0, [1], [1], ["linear"], ["linear"], Option.none, [Option.none]⟩

/-- The result of the witness `fit` call. -/
def fitW : AENode × List LayerFitLog :=
  match fit envW ndW [[1]] with
  | Except.ok p => p
  | Except.error _ => (ndW, [])

/-- The layer graph produced by the witness `init_layer` call. -/
def g7 : LayerGraph :=
  (init_layer 1 1 "sigmoid" "linear").getD ⟨0, 0, TExp.ph, TExp.ph, TExp.ph, []⟩

/-- The behaviour claim C8 asserts of `add_noise`: the mask branch
returns the masked copy and leaves the caller's array untouched; the
masked copy has the same shape as the input, and in each row the drawn
column set is a distinct in-range set of exactly
`int(round(frac * rowWidth))` positions, zeroed in the result while all
other entries are kept; the drawn count never exceeds the row width; a
width-10 row under mask(0.3) has exactly 3 positions zeroed; and the
gaussian branch adds the per-element sample to every entry, also
leaving the caller's array untouched. -/
def NoiseSpec (n : String) (frac : Frac) (gauss : Nat → Nat → Int)
    (choose : Nat → Nat → Nat → List Nat) (x : Mat) : Prop :=
  add_noise (some n) gauss choose x = Except.ok (some (maskedResult choose frac x), x)
  ∧ (maskedResult choose frac x).length = x.length
  ∧ (∀ i, i < x.length →
      ((maskedResult choose frac x).getD i []).length = (x.getD i []).length
      ∧ (choose i (x.getD i []).length (maskCount frac (x.getD i []).length)).length
          = maskCount frac (x.getD i []).length
      ∧ (choose i (x.getD i []).length (maskCount frac (x.getD i []).length)).Nodup
      ∧ (∀ j ∈ choose i (x.getD i []).length (maskCount frac (x.getD i []).length),
          j < (x.getD i []).length)
      ∧ (∀ j, j < (x.getD i []).length →
          ((maskedResult choose frac x).getD i []).getD j 0 =
            (if j ∈ choose i (x.getD i []).length (maskCount frac (x.getD i []).length)
             then 0 else (x.getD i []).getD j 0)))
  ∧ (∀ w, maskCount frac w ≤ w)
  ∧ maskCount (3, 10) 10 = 3
  ∧ add_noise (some "gaussian") gauss choose x = Except.ok (some (gaussResult gauss x), x)
  ∧ (∀ i j, i < x.length → j < (x.getD i []).length →
      ((gaussResult gauss x).getD i []).getD j 0 = (x.getD i []).getD j 0 + gauss i j)

/-- A deterministic gaussian-sample oracle for the witness. -/
def gaussW : Nat → Nat → Int := fun i j => (i : Int) + j

/-- A deterministic mask-position oracle for the witness: the first k
columns. -/
def chooseW : Nat → Nat → Nat → List Nat := fun _ _ k => List.range k

/-- The witness batch for the noise claim. -/
def xW : Mat := [[5, 7], [9, 11]]

/-- The witness variable values for the tied-weights and transform
claims. -/
def vW : LayerVars := ⟨[[1]], [0], [0]⟩

/-! Helper lemmas about the ordered input buffer. -/

theorem lookupD_of_not_contains (b : Buffer) (s : Sender)
    (h : containsKey b s = false) : lookupD b s = PyVal.pynone := by
  unfold lookupD
  cases hf : b.find? (fun p => p.1 = s) with
  | none => rfl
  | some p =>
    exfalso
    have hp := List.find?_some hf
    have hm := List.mem_of_find?_eq_some hf
    have : containsKey b s = true := by
      unfold containsKey
      rw [List.any_eq_true]
      exact ⟨p, hm, hp⟩
    rw [this] at h
    exact Bool.true_eq_false.mp h

theorem odSet_keys (b : Buffer) (s : Sender) (v : PyVal)
    (h : containsKey b s = true) : keysOf (odSet b s v) = keysOf b := by
  unfold odSet keysOf
  rw [if_pos h, List.map_map]
  refine List.map_congr_left ?_
  intro p _
  by_cases hp : p.1 = s <;> simp [hp]

theorem find?_map_update (b : Buffer) (s : Sender) (v : PyVal) :
    ∀ q ∈ b, q.1 = s →
    (b.map (fun p => if p.1 = s then (p.1, v) else p)).find?
      (fun p => p.1 = s) = some (s, v) := by
  induction b with
  | nil => intro q hq; cases hq
  | cons p t ih =>
    intro q hq hqs
    by_cases hp : p.1 = s
    · simp [List.find?, hp]
    · cases hq with
      | head => exact absurd hqs hp
      | tail _ hq =>
        rw [List.map_cons, if_neg hp, List.find?_cons_of_neg]
        · exact ih q hq hqs
        · simpa using hp

theorem find?_odSet_self (b : Buffer) (s : Sender) (v : PyVal)
    (h : containsKey b s = true) :
    (odSet b s v).find? (fun p => p.1 = s) = some (s, v) := by
  unfold odSet
  rw [if_pos h]
  unfold containsKey at h
  rw [List.any_eq_true] at h
  obtain ⟨q, hq, hqs⟩ := h
  exact find?_map_update b s v q hq (by simpa using hqs)

theorem lookupD_odSet_self (b : Buffer) (s : Sender) (v : PyVal)
    (h : containsKey b s = true) : lookupD (odSet b s v) s = v := by
  unfold lookupD
  rw [find?_odSet_self b s v h]

theorem odSet_all_nd (b : Buffer) (s : Sender) (m : Mat)
    (hoth : ∀ p ∈ b, p.1 ≠ s → isNd p.2 = true)
    (h : containsKey b s = true) :
    (odSet b s (PyVal.nd m)).all (fun p => isNd p.2) = true := by
  unfold odSet
  rw [if_pos h, List.all_eq_true]
  intro q hq
  rw [List.mem_map] at hq
  obtain ⟨p, hp, hpq⟩ := hq
  by_cases hps : p.1 = s
  · rw [if_pos hps] at hpq
    rw [← hpq]
    rfl
  · rw [if_neg hps] at hpq
    rw [← hpq]
    simpa using hoth p hp hps

theorem check_not_all (b : Buffer)
    (h : ¬ (b.all (fun p => isNd p.2) = true)) :
    check_input_buffer b = (b, []) := by
  unfold check_input_buffer
  rw [if_neg h]

theorem check_keys (b : Buffer) :
    keysOf (check_input_buffer b).1 = keysOf b := by
  unfold check_input_buffer
  by_cases h : b.all (fun p => isNd p.2) = true
  · rw [if_pos h]
    unfold keysOf
    rw [List.map_map]
    rfl
  · rw [if_neg h]

theorem receive_keys (b : Buffer) (s : Sender) (d : PyVal) :
    keysOf (receive_data_from b s d).1 = keysOf b := by
  unfold receive_data_from
  by_cases h : containsKey b s = false
  · rw [if_pos h]
  · rw [if_neg h]
    rw [Bool.not_eq_false] at h
    by_cases hf : isNd (lookupD b s) = true
    · rw [if_pos hf]
    · rw [if_neg hf]
      rw [check_keys, odSet_keys b s d h]

/-- Claim C1: with every other registered slot already holding a
payload and the sender's slot absent, a receive stores the payload,
fires `fit_transform` exactly once on the concatenation of the slot
values taken in registration order (the buffer's key order, which every
receive preserves, is the registration order regardless of delivery
order), and immediately afterwards every slot is reset to absent; when
some slot is still not an ndarray, `fit_transform` is not called at
all. -/
theorem c1_barrier_fires_once (b : Buffer) (s : Sender) (m : Mat)
    (hreg : containsKey b s = true)
    (habs : lookupD b s = PyVal.pynone)
    (hoth : ∀ p ∈ b, p.1 ≠ s → isNd p.2 = true) :
    receive_data_from b s (PyVal.nd m) =
      ((odSet b s (PyVal.nd m)).map (fun p => (p.1, PyVal.pynone)),
       [concatAxis1 ((odSet b s (PyVal.nd m)).map (fun p => getNd p.2))])
    ∧ keysOf (odSet b s (PyVal.nd m)) = keysOf b
    ∧ (∀ d : PyVal, keysOf (receive_data_from b s d).1 = keysOf b)
    ∧ (∀ b₀ : Buffer, (∃ p ∈ b₀, isNd p.2 = false) →
        check_input_buffer b₀ = (b₀, [])) := by
  refine ⟨?_, odSet_keys b s (PyVal.nd m) hreg, fun d => receive_keys b s d, ?_⟩
  · unfold receive_data_from
    rw [if_neg (by rw [hreg]; exact fun h => Bool.true_eq_false.mp h)]
    rw [if_neg (by rw [habs]; exact fun h => Bool.false_eq_true.mp h)]
    unfold check_input_buffer
    rw [if_pos (odSet_all_nd b s m hoth hreg)]
  · intro b₀ ⟨p, hp, hnd⟩
    apply check_not_all
    rw [List.all_eq_true]
    intro hall
    have := hall p hp
    rw [hnd] at this
    exact Bool.false_eq_true.mp this

/-- Claim C2: a receive from an unregistered sender, or into a slot
already holding an ndarray payload, changes nothing and calls nothing
(the previously stored payload survives unchanged); only a receive from
a registered sender into a non-full slot stores the data and runs the
completeness check. -/
theorem c2_receive_guards (b : Buffer) (s : Sender) (d : PyVal) :
    (containsKey b s = false → receive_data_from b s d = (b, []))
    ∧ (∀ m0 : Mat, lookupD b s = PyVal.nd m0 →
        receive_data_from b s d = (b, [])
        ∧ lookupD (receive_data_from b s d).1 s = PyVal.nd m0)
    ∧ (containsKey b s = true → isNd (lookupD b s) = false →
        receive_data_from b s d = check_input_buffer (odSet b s d)) := by
  refine ⟨?_, ?_, ?_⟩
  · intro h
    unfold receive_data_from
    rw [if_pos h]
  · intro m0 hm
    have hdrop : receive_data_from b s d = (b, []) := by
      unfold receive_data_from
      by_cases hc : containsKey b s = false
      · rw [if_pos hc]
      · rw [if_neg hc, if_pos (by rw [hm]; rfl)]
    exact ⟨hdrop, by rw [hdrop]; exact hm⟩
  · intro hc hnd
    unfold receive_data_from
    rw [if_neg (by rw [hc]; exact fun h => Bool.true_eq_false.mp h)]
    rw [if_neg (by rw [hnd]; exact fun h => Bool.false_eq_true.mp h)]

/-- Claim C4: registering after training has started (iteration > 0)
returns with only a warning — the buffer and the sender are untouched
and nothing is raised; any call that does change the buffer must have
happened at iteration 0; and a successful registration at iteration 0
stores the sender with an absent slot while subscribing this node's
receive on the sender (callback append for a node sender,
register_callback for an input-layer sender). -/
theorem c4_topology_freeze (it : Nat) (b : Buffer) (s : Sender) :
    (0 < it → register_for it b s = (b, RegResult.warnAlreadyRun))
    ∧ (∀ r : Buffer × RegResult, register_for it b s = r → r.1 ≠ b → it = 0)
    ∧ (it = 0 → s.isAE = true →
        register_for it b s = (odSet b s PyVal.pynone, RegResult.registeredAE))
    ∧ (it = 0 → s.isAE = false → pyFind s.classStr "InputLayer" ≠ 0 →
        register_for it b s = (odSet b s PyVal.pynone, RegResult.registeredInput)) := by
  refine ⟨?_, ?_, ?_, ?_⟩
  · intro h
    unfold register_for
    rw [if_pos h]
  · intro r hr hne
    by_contra hit
    have hpos : 0 < it := Nat.pos_of_ne_zero hit
    unfold register_for at hr
    rw [if_pos hpos] at hr
    rw [← hr] at hne
    exact hne rfl
  · intro hit hAE
    unfold register_for
    rw [hit]
    rw [if_neg (by omega), if_pos hAE]
  · intro hit hAE hfind
    unfold register_for
    rw [hit]
    rw [if_neg (by omega), if_neg (by rw [hAE]; exact fun h => Bool.false_eq_true.mp h),
        if_pos hfind]

/-- Claim C9: for a non-autoencoder sender whose class string does not
literally begin with "InputLayer" (Python class strings begin with
a left angle bracket or a module prefix), the class-name test
`str.find` returns -1 when "InputLayer" does not occur at all — a
truthy value — so the sender is registered as an input layer and the
final unknown-sender warning branch is never reached. -/
theorem c9_inputlayer_branch (b : Buffer) (s : Sender)
    (hAE : s.isAE = false)
    (hpre : ¬ ("InputLayer".data <+: s.classStr.data)) :
    pyFind s.classStr "InputLayer" ≠ 0
    ∧ register_for 0 b s = (odSet b s PyVal.pynone, RegResult.registeredInput)
    ∧ (¬ ("InputLayer".data <:+: s.classStr.data) →
        pyFind s.classStr "InputLayer" = -1) := by
  have hne : pyFind s.classStr "InputLayer" ≠ 0 := by
    unfold pyFind
    cases hf : (List.range (s.classStr.length + 1)).find?
        (fun i => ("InputLayer".data).isPrefixOf (s.classStr.data.drop i)) with
    | none => simp
    | some i =>
      have hp := List.find?_some hf
      show (i : Int) ≠ 0
      intro h0
      have hi : i = 0 := by exact_mod_cast h0
      rw [hi, List.drop_zero] at hp
      exact hpre (List.isPrefixOf_iff_prefix.mp hp)
  refine ⟨hne, ?_, ?_⟩
  · unfold register_for
    rw [if_neg (by omega), if_neg (by rw [hAE]; exact fun h => Bool.false_eq_true.mp h),
        if_pos hne]
  · intro hinf
    unfold pyFind
    cases hf : (List.range (s.classStr.length + 1)).find?
        (fun i => ("InputLayer".data).isPrefixOf (s.classStr.data.drop i)) with
    | none => rfl
    | some i =>
      exfalso
      have hp := List.find?_some hf
      have hpfx := List.isPrefixOf_iff_prefix.mp hp
      exact hinf (hpfx.isInfix.trans (List.drop_suffix i s.classStr.data).isInfix)

/-- Claim C10: a non-ndarray payload is stored in the slot, yet the
completeness check treats the slot as absent: the barrier cannot fire
while such a payload occupies any slot, and a later receive from the
same sender is not rejected by the full-slot guard — it overwrites the
stored payload and proceeds to the completeness check. -/
theorem c10_nonndarray_slot (b : Buffer) (s : Sender) (t : String)
    (hreg : containsKey b s = true)
    (habs : lookupD b s = PyVal.pynone) :
    receive_data_from b s (PyVal.other t) = (odSet b s (PyVal.other t), [])
    ∧ lookupD (odSet b s (PyVal.other t)) s = PyVal.other t
    ∧ (∀ b₀ : Buffer, (∃ p ∈ b₀, isNd p.2 = false) →
        (check_input_buffer b₀).2 = [])
    ∧ (∀ (b₁ : Buffer) (d : PyVal), containsKey b₁ s = true →
        lookupD b₁ s = PyVal.other t →
        receive_data_from b₁ s d = check_input_buffer (odSet b₁ s d)) := by
  have hstore : lookupD (odSet b s (PyVal.other t)) s = PyVal.other t :=
    lookupD_odSet_self b s (PyVal.other t) hreg
  refine ⟨?_, hstore, ?_, ?_⟩
  · unfold receive_data_from
    rw [if_neg (by rw [hreg]; exact fun h => Bool.true_eq_false.mp h)]
    rw [if_neg (by rw [habs]; exact fun h => Bool.false_eq_true.mp h)]
    apply check_not_all
    rw [List.all_eq_true]
    intro hall
    have hmem : (s, PyVal.other t) ∈ odSet b s (PyVal.other t) := by
      have := find?_odSet_self b s (PyVal.other t) hreg
      exact List.mem_of_find?_eq_some this
    have := hall _ hmem
    exact Bool.false_eq_true.mp this
  · intro b₀ ⟨p, hp, hnd⟩
    have : check_input_buffer b₀ = (b₀, []) := by
      apply check_not_all
      rw [List.all_eq_true]
      intro hall
      have := hall p hp
      rw [hnd] at this
      exact Bool.false_eq_true.mp this
    rw [this]
  · intro b₁ d hc hl
    unfold receive_data_from
    rw [if_neg (by rw [hc]; exact fun h => Bool.true_eq_false.mp h)]
    rw [if_neg (by rw [hl]; exact fun h => Bool.false_eq_true.mp h)]

/-- Witness for C1: in the two-source buffer the completing delivery
fires once with the payloads joined in registration order and clears
both slots. -/
theorem c1_witness :
    receive_data_from bW senderB (PyVal.nd [[3]]) =
      ([(senderA, PyVal.pynone), (senderB, PyVal.pynone)], [[[1, 2, 3]]]) := by
  have h := (c1_barrier_fires_once bW senderB [[3]] (by decide) (by decide) (by decide)).1
  exact h.trans (by decide)

/-- Witness for C2: a second delivery into senderA's full slot is
dropped. -/
theorem c2_witness :
    receive_data_from bW senderA (PyVal.nd [[9]]) = (bW, []) :=
  ((c2_receive_guards bW senderA (PyVal.nd [[9]])).2.1 [[1, 2]] (by decide)).1

/-- Witness for C4: a registration attempt at iteration 1 leaves the
buffer unchanged and only warns. -/
theorem c4_witness :
    register_for 1 bW senderC = (bW, RegResult.warnAlreadyRun) :=
  (c4_topology_freeze 1 bW senderC).1 (by decide)

/-- Witness for C9: a non-node, non-input-layer sender is registered as
an input layer, and its class string makes `str.find` return -1. -/
theorem c9_witness :
    register_for 0 bW senderC = (bW ++ [(senderC, PyVal.pynone)], RegResult.registeredInput)
    ∧ pyFind "<class mypkg.Camera>" "InputLayer" = -1 := by
  have h := c9_inputlayer_branch bW senderC (by decide) (by decide)
  exact ⟨h.2.1.trans (by decide), h.2.2 (by decide)⟩

/-- Witness for C10: a string payload is stored in senderB's slot and
the barrier does not fire. -/
theorem c10_witness :
    receive_data_from bW senderB (PyVal.other "PIL.Image") =
      ([(senderA, PyVal.nd [[1, 2]]), (senderB, PyVal.other "PIL.Image")], []) := by
  have h := (c10_nonndarray_slot bW senderB "PIL.Image" (by decide) (by decide)).1
  exact h.trans (by decide)

/-! Claim C5: construction-time validation. -/

/-- Claim C5 counterexample: an empty `dims` list (with an equally
empty epoch schedule) passes every assert — the code only checks that
`dims` is a list, never that it is non-empty — while the claim's rule
set requires construction to fail.  So construction does not fail
exactly when the claimed rules are violated. -/
theorem c5_counterexample :
    assertionsOk "rmse" [] [] Option.none = true
    ∧ specValid "rmse" [] [] Option.none = false := by
  constructor
  · decide
  · decide

theorem validator_truthy_eq (noise : Option String) :
    pyTruthy (noise_validator noise allowed_noises) = amendedNoiseOk noise := by
  cases noise with
  | none => rfl
  | some s =>
    show pyTruthy
        (if some s ∈ allowed_noises then some true
         else if (pySplit s '-').headD "" = "mask" then
           match (pySplit s '-').get? 1 with
           | Option.none => some false
           | some fs =>
             match pyFloat fs with
             | Option.none => some false
             | some t =>
               if t.1 = 0 then Option.none
               else if 0 ≤ t.1 ∧ t.1 ≤ (t.2 : Int) then some true else some false
         else Option.none) =
      (decide (s = "gaussian") || decide (s = "mask")
        || (decide ((pySplit s '-').headD "" = "mask")
            && match (pySplit s '-').get? 1 with
               | some fs =>
                 match pyFloat fs with
                 | some t => decide (t.1 ≠ 0 ∧ 0 ≤ t.1 ∧ t.1 ≤ (t.2 : Int))
                 | Option.none => false
               | Option.none => false))
    by_cases hg : some s ∈ allowed_noises
    · rw [if_pos hg]
      have hs : s = "gaussian" ∨ s = "mask" := by
        simpa [allowed_noises] using hg
      rcases hs with h | h <;> simp [h, pyTruthy]
    · rw [if_neg hg]
      have hng : ¬ s = "gaussian" := fun h => hg (by simp [allowed_noises, h])
      have hnm : ¬ s = "mask" := fun h => hg (by simp [allowed_noises, h])
      rw [decide_eq_false hng, decide_eq_false hnm]
      simp only [Bool.false_or]
      by_cases hm : (pySplit s '-').headD "" = "mask"
      · rw [if_pos hm, decide_eq_true hm, Bool.true_and]
        cases (pySplit s '-').get? 1 with
        | none => rfl
        | some fs =>
          show pyTruthy
              (match pyFloat fs with
               | Option.none => some false
               | some t =>
                 if t.1 = 0 then Option.none
                 else if 0 ≤ t.1 ∧ t.1 ≤ (t.2 : Int) then some true else some false) =
            (match pyFloat fs with
             | some t => decide (t.1 ≠ 0 ∧ 0 ≤ t.1 ∧ t.1 ≤ (t.2 : Int))
             | Option.none => false)
          cases pyFloat fs with
          | none => rfl
          | some t =>
            show pyTruthy (if t.1 = 0 then Option.none
                else if 0 ≤ t.1 ∧ t.1 ≤ (t.2 : Int) then some true else some false) =
              decide (t.1 ≠ 0 ∧ 0 ≤ t.1 ∧ t.1 ≤ (t.2 : Int))
            by_cases ht0 : t.1 = 0
            · rw [if_pos ht0, decide_eq_false (fun hc => hc.1 ht0)]
              rfl
            · rw [if_neg ht0]
              by_cases htr : 0 ≤ t.1 ∧ t.1 ≤ (t.2 : Int)
              · rw [if_pos htr, decide_eq_true ⟨ht0, htr.1, htr.2⟩]
                rfl
              · rw [if_neg htr,
                    decide_eq_false (fun hc => htr ⟨hc.2.1, hc.2.2⟩)]
                rfl
      · rw [if_neg hm, decide_eq_false hm, Bool.false_and]
        rfl

/-- Claim C5 amended: construction fails exactly when the loss kind is
not rmse or cross-entropy, the epoch schedule length differs from the
dims length, some epoch entry is below 1, or the noise spec fails
`noise_validator` — which accepts None, "gaussian", "mask", and
mask-frac strings whose frac parses to a nonzero rational in \x5b0,1\x5d
(so "mask-0.0" is rejected, and an empty dims list is accepted);
in particular the validator accepts "mask-0.5" and rejects "mask-1.5"
and "banana". -/
theorem c5_amended_validation :
    (∀ (loss : String) (dims : List Nat) (epoch : List Int) (noise : Option String),
      assertionsOk loss dims epoch noise = amendedValid loss dims epoch noise)
    ∧ pyTruthy (noise_validator (some "mask-0.5") allowed_noises) = true
    ∧ pyTruthy (noise_validator (some "mask-1.5") allowed_noises) = false
    ∧ pyTruthy (noise_validator (some "banana") allowed_noises) = false := by
  refine ⟨?_, by decide, by decide, by decide⟩
  intro loss dims epoch noise
  unfold assertionsOk amendedValid
  rw [validator_truthy_eq]

/-! Claim C8: noise injection. -/

theorem length_zipWith_range {β : Type} (f : Nat → β → β) (l : List β) :
    (List.zipWith f (List.range l.length) l).length = l.length := by
  simp [List.length_zipWith]

theorem getD_zipWith_range {β : Type} (f : Nat → β → β) (l : List β) (i : Nat)
    (hi : i < l.length) (d : β) :
    (List.zipWith f (List.range l.length) l).getD i d = f i (l.getD i d) := by
  have hlen : i < (List.zipWith f (List.range l.length) l).length := by
    rw [length_zipWith_range]; exact hi
  rw [List.getD_eq_getElem _ _ hlen, List.getD_eq_getElem _ _ hi, List.getElem_zipWith,
      List.getElem_range]

theorem maskCount_le (frac : Frac) (w : Nat)
    (h0 : 0 ≤ frac.1) (h1 : frac.1 ≤ (frac.2 : Int)) (hd : 0 < frac.2) :
    maskCount frac w ≤ w := by
  unfold maskCount pyRoundFrac
  rw [if_pos (by positivity : (0 : Int) ≤ frac.1 * w)]
  rw [Int.toNat_le, Int.fdiv_eq_ediv _ (by positivity)]
  apply Int.lt_add_one_iff.mp
  apply Int.ediv_lt_of_lt_mul (by positivity)
  have hmul : frac.1 * (w : Int) ≤ (frac.2 : Int) * w :=
    mul_le_mul_of_nonneg_right h1 (by positivity)
  have hd1 : (1 : Int) ≤ (frac.2 : Int) := by exact_mod_cast hd
  nlinarith [hmul, hd1]

/-- Claim C8: `add_noise` with a mask spec zeroes, independently per
row, exactly `int(round(frac * rowWidth))` distinct in-range column
positions drawn by the `np.random.choice` oracle, keeps every other
entry, and returns a copy, leaving the caller's batch unchanged; with
the gaussian spec it adds the per-element `np.random.normal` sample to
every entry (the distributional properties — uniformity without
replacement, zero mean, standard deviation 0.2 — are the contract of
the numpy sampling oracles and are not re-proved here). -/
theorem c8_noise (n fs : String) (frac : Frac) (gauss : Nat → Nat → Int)
    (choose : Nat → Nat → Nat → List Nat) (x : Mat)
    (hgname : n ≠ "gaussian")
    (hmask : "mask".data <:+: n.data)
    (hsplit : (pySplit n '-').get? 1 = some fs)
    (hfs : pyFloat fs = some frac)
    (hfr0 : 0 ≤ frac.1) (hfr1 : frac.1 ≤ (frac.2 : Int)) (hden : 0 < frac.2)
    (hch : ∀ i w k, k ≤ w →
      (choose i w k).length = k ∧ (choose i w k).Nodup ∧ ∀ j ∈ choose i w k, j < w) :
    NoiseSpec n frac gauss choose x := by
  have hcnt : ∀ w, maskCount frac w ≤ w := fun w => maskCount_le frac w hfr0 hfr1 hden
  refine ⟨?_, ?_, ?_, hcnt, by decide, ?_, ?_⟩
  · simp only [add_noise]
    rw [if_neg hgname, if_pos hmask]
    simp only [hsplit, hfs]
  · exact length_zipWith_range _ x
  · intro i hi
    have hrow : (maskedResult choose frac x).getD i [] =
        maskRowWith (choose i (x.getD i []).length (maskCount frac (x.getD i []).length))
          (x.getD i []) := by
      unfold maskedResult
      exact getD_zipWith_range _ x i hi []
    obtain ⟨hl, hnd, hin⟩ :=
      hch i (x.getD i []).length (maskCount frac (x.getD i []).length)
        (hcnt (x.getD i []).length)
    refine ⟨?_, hl, hnd, hin, ?_⟩
    · rw [hrow]
      exact length_zipWith_range _ _
    · intro j hj
      rw [hrow]
      exact getD_zipWith_range _ _ j hj 0
  · simp [add_noise]
  · intro i j hi hj
    have hrow : (gaussResult gauss x).getD i [] =
        List.zipWith (fun j v => v + gauss i j) (List.range (x.getD i []).length)
          (x.getD i []) := by
      unfold gaussResult
      exact getD_zipWith_range _ x i hi []
    rw [hrow]
    exact getD_zipWith_range _ _ j hj 0

/-- Witness for C8 at a concrete batch, mask spec and oracles. -/
theorem c8_witness : NoiseSpec "mask-0.3" (3, 10) gaussW chooseW xW :=
  c8_noise "mask-0.3" "0.3" (3, 10) gaussW chooseW xW
    (by decide) (by decide) (by decide) (by decide) (by decide) (by decide) (by decide)
    (fun i w k hk =>
      ⟨List.length_range k, List.nodup_range k,
       fun j hj => Nat.lt_of_lt_of_le (List.mem_range.mp hj) hk⟩)

/-! Claim C7: tied decode weights. -/

/-- Claim C7: a successfully initialized layer creates exactly the
three variables encode_weights, encode_biases, decode_biases (no
independent decode-weight variable exists, and the optimizer state
space `LayerVars` has no such field to update), its derived
decode-weights tensor evaluates to the transpose of the current
encode_weights under every variable assignment — that is, at every
point after initialization, however training has updated the
variables — and its decode op is exactly that transpose applied after
encode, plus decode_biases and the decoding activation. -/
theorem c7_tied_weights (din hid : Nat) (ea da : String) (g : LayerGraph)
    (hg : init_layer din hid ea da = some g) :
    (∀ (A : String → Mat → Mat) (x : Mat) (σ : LayerVars),
        evalT A x σ g.decodeWeightsExp = transposeM σ.encode_weights)
    ∧ (∀ (A : String → Mat → Mat) (x : Mat) (σ : LayerVars),
        evalT A x σ g.decodedExp =
          applyActivation A da
            (addBroadcast
              (matmulM (evalT A x σ g.encodedExp) (transposeM σ.encode_weights))
              σ.decode_biases))
    ∧ g.varsCreated = [VName.EW, VName.EB, VName.DB] := by
  unfold init_layer at hg
  split at hg
  · exact absurd hg (by simp)
  · rename_i encoded hea
    split at hg
    · exact absurd hg (by simp)
    · rename_i decoded hda
      injection hg with hg
      subst hg
      refine ⟨fun A x σ => rfl, ?_, rfl⟩
      intro A x σ
      unfold tfActivate at hda
      split at hda
      · rename_i h4
        injection hda with hda
        subst hda
        unfold applyActivation
        rw [if_pos h4]
        rfl
      · split at hda
        · rename_i h4 hlin
          injection hda with hda
          subst hda
          unfold applyActivation
          rw [if_neg h4]
          rfl
        · exact absurd hda (by simp)

/-- Witness for C7 at a concrete layer, assignment and feed. -/
theorem c7_witness :
    evalT (fun _ m => m) [[1]] vW g7.decodeWeightsExp = transposeM vW.encode_weights
    ∧ g7.varsCreated = [VName.EW, VName.EB, VName.DB] := by
  have h := c7_tied_weights 1 1 "sigmoid" "linear" g7 rfl
  exact ⟨h.1 (fun _ m => m) [[1]] vW, h.2.2⟩

/-! Claim C6: transform before any fit. -/

/-- Claim C6 counterexample: on a freshly constructed one-layer node
(no fit has run, so the layer dict still holds None for its weights),
`transform` lazily builds the inference graph and `tf.matmul` raises on
the None weight operand — a hard failure, not a result. -/
theorem c6_counterexample :
    transform (fun _ m => m) [Option.none] ["sigmoid"] [[1]] =
      Except.error "ValueError: None values not supported" := rfl

theorem transform_chain_ok (A : String → Mat → Mat) :
    ∀ (zs : List (Option (LayerGraph × LayerVars) × String)) (m : Mat),
      (∀ z ∈ zs, z.1.isSome = true ∧ z.2 ∈ allowed_activations) →
      isOkE (transform_chain A zs (some m)) = true := by
  intro zs
  induction zs with
  | nil => intro m _; rfl
  | cons z rest ih =>
    intro m hz
    obtain ⟨hs, ha⟩ := hz z (List.mem_cons_self z rest)
    obtain ⟨lv, hlv⟩ := Option.isSome_iff_exists.mp hs
    obtain ⟨z1, a⟩ := z
    simp only at hlv ha
    subst hlv
    show isOkE (transform_chain A rest
      (applyActivationOpt A a
        (addBroadcast (matmulM m lv.2.encode_weights) lv.2.encode_biases))) = true
    have hsome : ∃ m2, applyActivationOpt A a
        (addBroadcast (matmulM m lv.2.encode_weights) lv.2.encode_biases) = some m2 := by
      unfold applyActivationOpt
      simp only [allowed_activations, List.mem_cons, List.not_mem_nil, or_false] at ha
      rcases ha with h | h | h | h | h <;> subst h <;> simp
    obtain ⟨m2, hm2⟩ := hsome
    rw [hm2]
    exact ih m2 (fun z2 hz2 => hz z2 (List.mem_cons_of_mem _ hz2))

/-- Claim C6 amended: once every layer in the zip of layers and
encoding activations holds created variables (true after the first
fit) and the activation names are recognized, the lazily built
transform succeeds and returns a result; before any fit, with layer
variables still None, the lazy build raises from `tf.matmul` on a None
operand (see the counterexample). -/
theorem c6_amended_transform (A : String → Mat → Mat)
    (layers : List (Option (LayerGraph × LayerVars))) (encActs : List String) (data : Mat)
    (hinit : ∀ l ∈ layers, l.isSome = true)
    (hacts : ∀ a ∈ encActs, a ∈ allowed_activations) :
    isOkE (transform A layers encActs data) = true := by
  unfold transform
  apply transform_chain_ok
  intro z hzm
  obtain ⟨h1, h2⟩ := List.of_mem_zip hzm
  exact ⟨hinit z.1 h1, hacts z.2 h2⟩

/-- Witness for C6 (amended) on an initialized one-layer node. -/
theorem c6_witness :
    isOkE (transform (fun _ m => m) [some (g7, vW)] ["linear"] [[1]]) = true :=
  c6_amended_transform (fun _ m => m) [some (g7, vW)] ["linear"] [[1]]
    (by intro l hl; simp at hl; simp [hl]) (by decide)

/-! Claim C3: greedy layer-wise training. -/

theorem set_preserves_map_fst :
    ∀ (ls : List (Option (LayerGraph × LayerVars))) (i : Nat)
      (gv : LayerGraph × LayerVars) (w : LayerVars),
      ls.getD i Option.none = some gv →
      (ls.set i (some (gv.1, w))).map (Option.map Prod.fst) =
        ls.map (Option.map Prod.fst) := by
  intro ls
  induction ls with
  | nil =>
    intro i gv w h
    simp [List.getD] at h
  | cons a t ih =>
    intro i gv w h
    cases i with
    | zero =>
      rw [List.getD_cons_zero] at h
      subst h
      rfl
    | succ n =>
      rw [List.getD_cons_succ] at h
      show Option.map Prod.fst a :: (t.set n (some (gv.1, w))).map (Option.map Prod.fst) =
        Option.map Prod.fst a :: t.map (Option.map Prod.fst)
      rw [ih n gv w h]

theorem fitLoop_spec (E : FitEnv) (nd : AENode) (it : Nat) :
    ∀ (is : List Nat) (ls : List (Option (LayerGraph × LayerVars))) (x : Mat)
      (res : List (Option (LayerGraph × LayerVars)) × List LayerFitLog),
      fitLoop E nd it is ls x = Except.ok res →
      res.2.map (fun lg => lg.idx) = is
      ∧ (∀ lg ∈ res.2,
          lg.inited = decide (it = 1)
          ∧ lg.varsAfter =
              (fun w => E.optStep lg.graph w lg.corrupted lg.target)^[nd.epoch.getD lg.idx 0]
                lg.varsBefore
          ∧ lg.corrupted = (match nd.noise with
              | Option.none => lg.target
              | some _ => E.corruptF lg.target)
          ∧ lg.output = evalT E.actInterp lg.target lg.varsAfter lg.graph.encodedExp)
      ∧ List.Chain' (fun a b => b.target = a.output) res.2
      ∧ (∀ lg, res.2.head? = some lg → lg.target = x)
      ∧ (it ≠ 1 → res.1.map (Option.map Prod.fst) = ls.map (Option.map Prod.fst)) := by
  intro is
  induction is with
  | nil =>
    intro ls x res h
    have h2 : (Except.ok (ls, ([] : List LayerFitLog)) :
        Except String (List (Option (LayerGraph × LayerVars)) × List LayerFitLog)) =
        Except.ok res := h
    injection h2 with h3
    subst h3
    refine ⟨rfl, ?_, List.chain'_nil, ?_, fun _ => rfl⟩
    · intro lg hlg
      exact absurd hlg (List.not_mem_nil lg)
    · intro lg hlg
      exact Option.noConfusion hlg
  | cons i rest ih =>
    intro ls x res h
    simp only [fitLoop] at h
    split at h
    · exact absurd h (by simp)
    · rename_i gv hgv
      split at h
      · exact absurd h (by simp)
      · rename_i pr hpr
        have hres : res = (pr.1,
            { idx := i, graph := gv.1, inited := decide (it = 1),
              varsBefore := gv.2,
              varsAfter := (fit_layer E gv.1 gv.2
                (match nd.noise with
                 | Option.none => x
                 | some _ => E.corruptF x) x (nd.epoch.getD i 0)).1,
              corrupted := (match nd.noise with
                 | Option.none => x
                 | some _ => E.corruptF x),
              target := x,
              output := (fit_layer E gv.1 gv.2
                (match nd.noise with
                 | Option.none => x
                 | some _ => E.corruptF x) x (nd.epoch.getD i 0)).2 } :: pr.2) := by
          injection h with h2
          exact h2.symm
        subst hres
        obtain ⟨ihmap, ihall, ihchain, ihhead, ihpres⟩ :=
          ih (ls.set i (some (gv.1,
            (fit_layer E gv.1 gv.2
              (match nd.noise with
               | Option.none => x
               | some _ => E.corruptF x) x (nd.epoch.getD i 0)).1))) _ pr hpr
        refine ⟨?_, ?_, ?_, ?_, ?_⟩
        · show i :: pr.2.map (fun lg => lg.idx) = i :: rest
          rw [ihmap]
        · intro lg hlg
          rcases List.mem_cons.mp hlg with hlg | hlg
          · subst hlg
            exact ⟨rfl, rfl, rfl, rfl⟩
          · exact ihall lg hlg
        · rw [List.chain'_cons']
          refine ⟨?_, ihchain⟩
          intro y hy
          exact ihhead y hy
        · intro lg hlg
          injection hlg with h6
          subst h6
          rfl
        · intro hit
          rw [ihpres hit]
          rw [if_neg hit] at hgv
          apply set_preserves_map_fst
          cases hls : ls.getD i Option.none with
          | none =>
            rw [hls] at hgv
            exact absurd hgv (by simp)
          | some gv0 =>
            rw [hls] at hgv
            have hgv2 : (Except.ok gv0 : Except String (LayerGraph × LayerVars)) =
                Except.ok gv := hgv
            injection hgv2 with hgv3
            rw [← hgv3]

/-- Claim C3: a `fit` call advances the iteration counter, trains every
layer exactly once in index order, runs exactly `epochSchedule\x5bi\x5d`
optimizer steps for layer i on the (corrupted input, clean input) pair,
replaces the working batch with the clean encoding of the clean input
under the post-training variables (which becomes layer i+1's input),
initializes layers exactly on the node's first call, and never rebuilds
a layer graph on later calls. -/
theorem c3_greedy_training (E : FitEnv) (nd : AENode) (x : Mat)
    (nd2 : AENode) (logs : List LayerFitLog)
    (h : fit E nd x = Except.ok (nd2, logs)) : FitSpec E nd x nd2 logs := by
  unfold fit at h
  split at h
  · exact absurd h (by simp)
  · rename_i pr hpr
    have hpair : ({ nd with iteration := nd.iteration + 1, layers := pr.1 }, pr.2) =
        (nd2, logs) := by injection h
    have hnd2 : nd2 = { nd with iteration := nd.iteration + 1, layers := pr.1 } :=
      (congrArg Prod.fst hpair).symm
    have hlogs : logs = pr.2 := (congrArg Prod.snd hpair).symm
    obtain ⟨hmap, hall, hchain, hhead, hpres⟩ :=
      fitLoop_spec E nd (nd.iteration + 1) (List.range nd.dims.length) nd.layers x pr hpr
    have hdec : decide (nd.iteration + 1 = 1) = decide (nd.iteration = 0) :=
      decide_eq_decide.mpr (by omega)
    subst hlogs
    subst hnd2
    refine ⟨rfl, hmap, ?_, hchain, hhead, ?_⟩
    · intro lg hlg
      obtain ⟨h1, h2, h3, h4⟩ := hall lg hlg
      exact ⟨by rw [h1, hdec], h2, h3, h4⟩
    · intro hit
      exact hpres (by omega)

/-- Witness for C3: the concrete first fit call of the witness node. -/
theorem c3_witness : FitSpec envW ndW [[1]] fitW.1 fitW.2 :=
  c3_greedy_training envW ndW [[1]] fitW.1 fitW.2 rfl

end SAE
